import Mathlib

/-!
Verification of the actor runtime in src/problems/class5/a-actor/src/lib.rs.

The crate provides: trait Actor (hooks started/stopped, constructor start),
trait Handler<M> (handle), struct Context<A> (addr, stop), struct Addr<A>
(send, derived Clone), the private type-erasure pair (trait Envelope<A> and
struct Message<M>), and struct Inner<A> (the shared channel ends tx, stop_tx).

The repository ships only the problem skeleton for class5: the body of
Actor::start (line 13) is todo!() and no solution crate for class5 exists in
the repository, so the run loop it would spawn is modelled from the design
document (sections 4.1 and 4.4); everything else below is translated directly
from the Rust source.
-/

namespace ActorSpec

/-- Rust Handler<M>::handle(&mut self, msg: M, ctx: &mut Context<Self>)
(lib.rs lines 57-63), modelled as a state transformer: from the actor state,
the message and the context-visible state to the updated actor and context
states. -/
def HandlerFn (A M C : Type) : Type := A → M → C → A × C

/-- Rust struct Message<M> { msg: Option<M> } (lib.rs lines 70-72): the
concrete envelope holding the moved-in message. -/
structure Message (M : Type) where
  msg : Option M

/-- Rust Box<dyn Envelope<A> + Send>: after erasure all the mailbox keeps of a
message is the single dispatch operation taking the live actor and context.
A `none` result models a panic inside the dispatch. -/
def EnvelopeFn (A C : Type) : Type := A → C → Option (A × C)

/-- Rust impl Envelope<A> for Message<M> (lib.rs lines 74-83):
act.handle(self.msg.take().unwrap(), ctx). take moves the stored message out
leaving None behind; unwrap panics (modelled as `none`) when nothing is
stored. The result carries the updated actor and context states and the
envelope as left after the take. -/
def Message.handle {A M C : Type} (h : HandlerFn A M C) (e : Message M)
    (a : A) (c : C) : Option ((A × C) × Message M) :=
  match e.msg with
  | some m => some (h a m c, ⟨none⟩)
  | none => none

/-- Rust Box::new(Message { msg: Some(msg) }) as built inside Inner::send
(lib.rs line 96). -/
def mkMessage {M : Type} (m : M) : Message M := ⟨some m⟩

/-- The erased value the mailbox stores for a send of m bound to handler h:
the one-shot dispatch operation of the freshly built Message envelope. -/
def eraseEnvelope {A M C : Type} (h : HandlerFn A M C) (m : M) :
    EnvelopeFn A C :=
  fun a c => (Message.handle h (mkMessage m) a c).map Prod.fst

/-- A tokio mpsc channel endpoint: a send fails iff the receiver has been
dropped (the channel is closed); otherwise the element joins the FIFO
buffer. -/
structure Chan (E : Type) where
  closed : Bool
  buf : List E

/-- Result<(), SendError<E>> as returned by tokio Sender::send: the error
case hands the rejected element back. -/
inductive SendResult (E : Type) where
  | ok : SendResult E
  | err : E → SendResult E

/-- Sending on one channel endpoint. -/
def Chan.send {E : Type} (ch : Chan E) (e : E) : SendResult E × Chan E :=
  if ch.closed then (SendResult.err e, ch)
  else (SendResult.ok, ⟨ch.closed, ch.buf ++ [e]⟩)

/-- Rust struct Inner<A> { tx: Sender<Box<dyn Envelope<A> + Send>>,
stop_tx: Sender<()> } (lib.rs lines 85-88). The two Sender ends are
represented by the identity of the channel each feeds, so that sharing an
Inner between handles is sharing the underlying channel ends. -/
structure Inner where
  tx : Nat
  stop_tx : Nat

/-- The channels of the process, indexed by channel identity. -/
structure Store (E : Type) where
  chans : Nat → Chan E

/-- Sending on the channel a Sender end designates. -/
def Store.send {E : Type} (st : Store E) (id : Nat) (e : E) :
    SendResult E × Store E :=
  let r := Chan.send (st.chans id) e
  (r.fst, ⟨fun j => if j = id then r.snd else st.chans j⟩)

/-- Rust Inner::send (lib.rs lines 90-98): builds the type-erased envelope
Box::new(Message { msg: Some(msg) }), sends it on tx, and discards the send
result (`let _ = ... .await`), so the caller gets back (). -/
def Inner.send {A M C : Type} (h : HandlerFn A M C) (i : Inner) (m : M)
    (st : Store (EnvelopeFn A C)) : Unit × Store (EnvelopeFn A C) :=
  ((), (Store.send st i.tx (eraseEnvelope h m)).snd)

/-- Rust struct Context<A> { inner: Arc<Inner<A>> } (lib.rs lines 19-21). -/
structure Context where
  inner : Inner

/-- Rust struct Addr<A> { inner: Arc<Inner<A>> } (lib.rs lines 42-45). -/
structure Addr where
  inner : Inner

/-- Rust Context::addr (lib.rs lines 31-35): clones the Arc<Inner>, so the
returned Addr references the very same Inner, hence the same tx and stop_tx
channel ends. -/
def Context.addr (c : Context) : Addr := ⟨c.inner⟩

/-- Rust derive(Clone) on Addr (lib.rs line 42): the clone holds a clone of
the Arc<Inner>, i.e. references the same Inner. -/
def Addr.clone (a : Addr) : Addr := ⟨a.inner⟩

/-- Rust Addr::send (lib.rs lines 47-55): delegates to Inner::send. -/
def Addr.send {A M C : Type} (h : HandlerFn A M C) (a : Addr) (m : M)
    (st : Store (EnvelopeFn A C)) : Unit × Store (EnvelopeFn A C) :=
  Inner.send h a.inner m st

/-- Rust Context::stop (lib.rs lines 37-39): sends () on stop_tx and discards
the result (`let _ = ...`). -/
def Context.stop (c : Context) (st : Store Unit) : Unit × Store Unit :=
  ((), (Store.send st c.inner.stop_tx ()).snd)

/-- Whether a stop request is pending for the run loop behind stop channel
end i.stop_tx: at least one () has been enqueued and not yet consumed. -/
def stopRequested (st : Store Unit) (i : Inner) : Prop :=
  (st.chans i.stop_tx).buf ≠ []

/-- The receiver types on which the public operations of the crate live. -/
inductive ApiReceiver where
  | actorTrait : ApiReceiver
  | contextTy : ApiReceiver
  | addrTy : ApiReceiver
  | handlerTrait : ApiReceiver
  deriving DecidableEq, Fintype

/-- Every public operation the crate exposes (the whole surface of lib.rs):
Actor::started, Actor::start, Actor::stopped (lines 8-17), Context::addr and
Context::stop (lines 31-39), Addr::send (lines 47-55) and the derived
Addr::clone (line 42), Handler::handle (lines 57-63). Context::new is
private. -/
inductive ApiOp where
  | actorStarted : ApiOp
  | actorStart : ApiOp
  | actorStopped : ApiOp
  | contextAddr : ApiOp
  | contextStop : ApiOp
  | addrSend : ApiOp
  | addrClone : ApiOp
  | handlerHandle : ApiOp
  deriving DecidableEq, Fintype

/-- The type each operation is exposed on. -/
def ApiOp.receiver : ApiOp → ApiReceiver
  | .actorStarted => .actorTrait
  | .actorStart => .actorTrait
  | .actorStopped => .actorTrait
  | .contextAddr => .contextTy
  | .contextStop => .contextTy
  | .addrSend => .addrTy
  | .addrClone => .addrTy
  | .handlerHandle => .handlerTrait

/-- Which operations issue a shutdown request, i.e. send on stop_tx: only
Context::stop does (lib.rs line 38). -/
def ApiOp.requestsShutdown : ApiOp → Bool
  | .contextStop => true
  | _ => false

/-- Modelled from the spec: the state of a freshly started actor before its
started hook has completed. Actor::start in the source (lib.rs line 13) is
todo!() and the class5 solution crate is absent from the repository, so this
follows the design document section 4.1: start takes ownership of the actor
value, spawns the run-loop task and returns an Address immediately; the
mailbox begins empty and the started hook has not yet run. -/
structure PreStart (A E : Type) where
  actor : A
  mailbox : List E
  startedRun : Bool

/-- Modelled from the spec (section 4.1): Actor::start moves the actor value
into the run-loop task and hands back the Address over the two freshly
created channel ends (identities 0 for the mailbox, 1 for the stop
channel). -/
def Actor.start (A E : Type) (a : A) : Addr × PreStart A E :=
  (⟨⟨0, 1⟩⟩, ⟨a, [], false⟩)

/-- Modelled from the spec (section 4.1): a send issued before the started
hook has completed simply queues — the envelope joins the mailbox in arrival
order and neither the actor value nor the lifecycle state is touched. -/
def earlySend {A E : Type} (st : PreStart A E) (e : E) : PreStart A E :=
  ⟨st.actor, st.mailbox ++ [e], st.startedRun⟩

/-- Modelled from the spec (section 4.4 step 1): what the run-loop wait can
see next — a ready envelope from the mailbox, or the stop signal. -/
inductive Arrival (E : Type) where
  | msg : E → Arrival E
  | stopSig : Arrival E
  deriving DecidableEq

/-- Modelled from the spec: the observable lifecycle events of one actor —
the started hook, one handler execution per dispatched envelope, the stopped
hook. -/
inductive Event (E : Type) where
  | startedHook : Event E
  | handled : E → Event E
  | stoppedHook : Event E
  deriving DecidableEq

/-- Modelled from the spec (section 4.4 steps 1-3): the loop body after the
started hook. A ready envelope is dispatched to completion before the next
iteration; once the stop request is observed no further envelope is drained
(the mainline policy of step 3), the stopped hook runs and the loop exits.
Returns the final actor state, the emitted events in order, and whether the
loop terminated through a stop request. -/
def runBody {A E : Type} (h : A → E → A) : A → List (Arrival E) → A × List (Event E) × Bool
  | a, [] => (a, [], false)
  | a, Arrival.msg e :: rest =>
      let r := runBody h (h a e) rest
      (r.fst, Event.handled e :: r.snd.fst, r.snd.snd)
  | a, Arrival.stopSig :: _ => (a, [Event.stoppedHook], true)

/-- Modelled from the spec (sections 4.1 and 4.4): the whole run loop — the
started hook fires first, exactly once, then the loop body drains
arrivals. -/
def runLoop {A E : Type} (h : A → E → A) (a : A) (arr : List (Arrival E)) :
    A × List (Event E) × Bool :=
  let r := runBody h a arr
  (r.fst, Event.startedHook :: r.snd.fst, r.snd.snd)

/-- The envelopes the run loop dispatches: those arriving before the first
stop signal. -/
def msgsUntilStop {E : Type} : List (Arrival E) → List E
  | [] => []
  | Arrival.msg e :: rest => e :: msgsUntilStop rest
  | Arrival.stopSig :: _ => []

/-- Whether a stop signal occurs anywhere in the arrival stream. -/
def sawStop {E : Type} : List (Arrival E) → Bool
  | [] => false
  | Arrival.msg _ :: rest => sawStop rest
  | Arrival.stopSig :: _ => true

/-- All envelopes of the arrival stream, in arrival order. -/
def arrivalMsgs {E : Type} : List (Arrival E) → List E
  | [] => []
  | Arrival.msg e :: rest => e :: arrivalMsgs rest
  | Arrival.stopSig :: rest => arrivalMsgs rest

/-- The messages a trace shows as handled, in order. -/
def handledMsgs {E : Type} : List (Event E) → List E
  | [] => []
  | Event.handled e :: rest => e :: handledMsgs rest
  | Event.startedHook :: rest => handledMsgs rest
  | Event.stoppedHook :: rest => handledMsgs rest

/-! Helper lemmas. -/

theorem foldl_earlySend {A E : Type} (a : A) (q ms : List E) (b : Bool) :
    ms.foldl earlySend ⟨a, q, b⟩ = ⟨a, q ++ ms, b⟩ := by
  induction ms generalizing q with
  | nil => simp
  | cons e rest ih => simp [earlySend, ih]

theorem trace_runBody {A E : Type} (h : A → E → A) (a : A)
    (arr : List (Arrival E)) :
    (runBody h a arr).snd.fst =
      (msgsUntilStop arr).map Event.handled
        ++ (if sawStop arr = true then [Event.stoppedHook] else []) := by
  induction arr generalizing a with
  | nil => rfl
  | cons x rest ih =>
    cases x with
    | msg e => simp [runBody, msgsUntilStop, sawStop, ih]
    | stopSig => rfl

theorem stopFlag_runBody {A E : Type} (h : A → E → A) (a : A)
    (arr : List (Arrival E)) :
    (runBody h a arr).snd.snd = sawStop arr := by
  induction arr generalizing a with
  | nil => rfl
  | cons x rest ih =>
    cases x with
    | msg e => simp [runBody, sawStop, ih]
    | stopSig => rfl

theorem handledMsgs_runBody {A E : Type} (h : A → E → A) (a : A)
    (arr : List (Arrival E)) :
    handledMsgs (runBody h a arr).snd.fst = msgsUntilStop arr := by
  induction arr generalizing a with
  | nil => rfl
  | cons x rest ih =>
    cases x with
    | msg e => simp [runBody, handledMsgs, msgsUntilStop, ih]
    | stopSig => rfl

theorem handledMsgs_runLoop {A E : Type} (h : A → E → A) (a : A)
    (arr : List (Arrival E)) :
    handledMsgs (runLoop h a arr).snd.fst = msgsUntilStop arr := by
  simp [runLoop, handledMsgs, handledMsgs_runBody]

theorem msgsUntilStop_take {E : Type} (arr : List (Arrival E)) :
    ∃ k, msgsUntilStop arr = (arrivalMsgs arr).take k := by
  induction arr with
  | nil => exact ⟨0, rfl⟩
  | cons x rest ih =>
    cases x with
    | msg e =>
      obtain ⟨k, hk⟩ := ih
      exact ⟨k + 1, by simp [msgsUntilStop, arrivalMsgs, hk]⟩
    | stopSig => exact ⟨0, rfl⟩

theorem filter_take_eq_take_filter {E : Type} (p : E → Bool) :
    ∀ (l : List E) (k : Nat), ∃ j, (l.take k).filter p = (l.filter p).take j := by
  intro l
  induction l with
  | nil => exact fun k => ⟨0, by simp⟩
  | cons x xs ih =>
    intro k
    cases k with
    | zero => exact ⟨0, by simp⟩
    | succ k =>
      obtain ⟨j, hj⟩ := ih k
      by_cases hp : p x = true
      · exact ⟨j + 1, by simp [List.filter_cons, hp, hj]⟩
      · simp only [Bool.not_eq_true] at hp
        exact ⟨j, by simp [List.filter_cons, hp, hj]⟩

theorem msgsUntilStop_of_no_stop {E : Type} (arr : List (Arrival E))
    (hns : sawStop arr = false) : msgsUntilStop arr = arrivalMsgs arr := by
  induction arr with
  | nil => rfl
  | cons x rest ih =>
    cases x with
    | msg e =>
      simp only [sawStop] at hns
      simp [msgsUntilStop, arrivalMsgs, ih hns]
    | stopSig => simp [sawStop] at hns

theorem runBody_first_stop {A E : Type} (h : A → E → A) (a : A)
    (l l' : List (Arrival E)) :
    runBody h a (l ++ Arrival.stopSig :: l') = runBody h a (l ++ [Arrival.stopSig]) := by
  induction l generalizing a with
  | nil => rfl
  | cons x rest ih =>
    cases x with
    | msg e => simp [runBody, ih]
    | stopSig => rfl

/-! Concrete fixtures used by the witnesses. -/

def testHandler : HandlerFn Nat Nat Unit := fun a m c => (a + m, c)

def testInner : Inner := ⟨0, 1⟩

def testAddr : Addr := ⟨testInner⟩

def testContext : Context := ⟨testInner⟩

def openStore : Store (EnvelopeFn Nat Unit) := ⟨fun _ => ⟨false, []⟩⟩

def closedStore : Store (EnvelopeFn Nat Unit) := ⟨fun _ => ⟨true, []⟩⟩

/-! Claim theorems. -/

/-- C1: Actor::start takes ownership of the actor value, spawns the run-loop
task and returns an Address immediately (it is a total operation: it neither
panics nor diverges in the model taken from the spec, since the source body
is the todo placeholder); any messages sent on that Address before the
started hook has completed are simply queued, in order, with the actor value
and the lifecycle state untouched. -/
theorem start_returns_address_and_queues_early_sends {A E : Type} (a : A)
    (ms : List E) :
    (Actor.start A E a).fst = Addr.mk (Inner.mk 0 1) ∧
    (Actor.start A E a).snd.actor = a ∧
    (Actor.start A E a).snd.mailbox = [] ∧
    (Actor.start A E a).snd.startedRun = false ∧
    ms.foldl earlySend (Actor.start A E a).snd = PreStart.mk a ms false := by
  refine ⟨rfl, rfl, rfl, rfl, ?_⟩
  have h := foldl_earlySend a ([] : List E) ms false
  simpa [Actor.start] using h

/-- C2: the type-erased envelope that Inner::send enqueues for a message m
bound to handler h is exactly eraseEnvelope h m (first conjunct: it joins the
mailbox buffer), and invoking that envelope's single dispatch operation on
the live actor and context has exactly the effect of the typed handler call
h a m c (second conjunct). -/
theorem send_envelope_dispatch_equals_handler {A M C : Type}
    (h : HandlerFn A M C) (i : Inner) (m : M) (st : Store (EnvelopeFn A C))
    (a : A) (c : C) (hopen : (st.chans i.tx).closed = false) :
    ((Inner.send h i m st).snd.chans i.tx).buf =
      (st.chans i.tx).buf ++ [eraseEnvelope h m] ∧
    eraseEnvelope h m a c = some (h a m c) := by
  constructor
  · simp [Inner.send, Store.send, Chan.send, hopen]
  · rfl

/-- Witness for C2 at a concrete actor, handler and open store. -/
theorem send_envelope_dispatch_equals_handler_witness :
    (openStore.chans testInner.tx).closed = false ∧
    ((Inner.send testHandler testInner 2 openStore).snd.chans testInner.tx).buf =
      (openStore.chans testInner.tx).buf ++ [eraseEnvelope testHandler 2] ∧
    eraseEnvelope testHandler 2 1 () = some (3, ()) := by
  have h := send_envelope_dispatch_equals_handler testHandler testInner 2
    openStore 1 () rfl
  exact ⟨rfl, h.1, h.2.trans rfl⟩

/-- C3 counterexample: the claim says a send issued on a closed mailbox
reports a delivery failure to the caller. It does not: Addr::send returns
the unit value, so at this concrete closed store the caller-visible result
of the failed send is identical to the caller-visible result of a successful
send on an open store, while the message has been silently dropped (the
mailbox buffer stays empty). -/
theorem addr_send_closed_reports_nothing_to_caller :
    (Addr.send testHandler testAddr 5 closedStore).fst =
      (Addr.send testHandler testAddr 5 openStore).fst ∧
    ((Addr.send testHandler testAddr 5 closedStore).snd.chans 0).buf = [] := by
  exact ⟨rfl, rfl⟩

/-- C3 amended: Addr::send returns (), not a Result; when the mailbox is
closed the channel delivery error is discarded (`let _ =` in Inner::send),
so the call returns normally — it never panics — and the mailbox is left
exactly as it was (the send neither enqueues nor resurrects anything). -/
theorem addr_send_closed_never_panics {A M C : Type} (h : HandlerFn A M C)
    (ad : Addr) (m : M) (st : Store (EnvelopeFn A C))
    (hclosed : (st.chans ad.inner.tx).closed = true) :
    (Addr.send h ad m st).fst = () ∧
    (Addr.send h ad m st).snd.chans ad.inner.tx = st.chans ad.inner.tx := by
  refine ⟨rfl, ?_⟩
  simp [Addr.send, Inner.send, Store.send, Chan.send, hclosed]

/-- Witness for the amended C3 at a concrete closed store. -/
theorem addr_send_closed_never_panics_witness :
    (closedStore.chans testAddr.inner.tx).closed = true ∧
    (Addr.send testHandler testAddr 5 closedStore).snd.chans testAddr.inner.tx =
      closedStore.chans testAddr.inner.tx :=
  ⟨rfl, (addr_send_closed_never_panics testHandler testAddr 5 closedStore rfl).2⟩

/-- C4 counterexample: the claim says the Address type exposes a
shutdown-request operation. It does not: scanning the full public surface of
the crate, no operation whose receiver is the Addr type issues a shutdown
request — Addr only exposes send and the derived clone. -/
theorem no_shutdown_op_on_addr :
    ¬ ∃ op : ApiOp, op.receiver = ApiReceiver.addrTy ∧
      op.requestsShutdown = true := by
  decide

/-- C4 amended: the shutdown-request operation the crate exposes is
Context::stop, and Context is available only to code running inside the
actor's own task — every operation that issues a shutdown request has the
Context type as its receiver, so an Address holder cannot request
shutdown. -/
theorem shutdown_only_via_context :
    (∃ op : ApiOp, op.requestsShutdown = true ∧
      op.receiver = ApiReceiver.contextTy) ∧
    (∀ op : ApiOp, op.requestsShutdown = true →
      op.receiver = ApiReceiver.contextTy) := by
  decide

/-- Witness for the amended C4 at the concrete operation Context::stop. -/
theorem shutdown_only_via_context_witness :
    ApiOp.receiver ApiOp.contextStop = ApiReceiver.contextTy :=
  shutdown_only_via_context.2 ApiOp.contextStop rfl

/-- C5: in every run of the (spec-modelled) run loop, the started hook is
the very first event and fires exactly once; when the run terminates through
a stop request the stopped hook fires exactly once and is the last event of
the run (so no handler runs after it), and while no stop has been observed
the stopped hook has not fired. -/
theorem lifecycle_exactly_once {A E : Type} [DecidableEq E] (h : A → E → A)
    (a : A) (arr : List (Arrival E)) :
    (runLoop h a arr).snd.fst.head? = some Event.startedHook ∧
    (runLoop h a arr).snd.fst.count Event.startedHook = 1 ∧
    (sawStop arr = true →
      (runLoop h a arr).snd.fst.count Event.stoppedHook = 1) ∧
    (sawStop arr = false →
      (runLoop h a arr).snd.fst.count Event.stoppedHook = 0) ∧
    (sawStop arr = true →
      (runLoop h a arr).snd.fst.getLast? = some Event.stoppedHook) := by
  have key : (runLoop h a arr).snd.fst =
      Event.startedHook :: ((msgsUntilStop arr).map Event.handled
        ++ (if sawStop arr = true then [Event.stoppedHook] else [])) := by
    simp [runLoop, trace_runBody]
  refine ⟨?_, ?_, ?_, ?_, ?_⟩
  · rw [key]
    rfl
  · rw [key]
    cases hs : sawStop arr <;>
      simp [hs, List.count_cons, List.count_append, List.count_eq_zero,
        List.mem_map]
  · intro hs
    rw [key]
    simp [hs, List.count_cons, List.count_append, List.count_eq_zero,
      List.mem_map]
  · intro hs
    rw [key]
    simp [hs, List.count_cons, List.count_append, List.count_eq_zero,
      List.mem_map]
  · intro hs
    rw [key]
    simp only [hs, if_pos]
    rw [← List.cons_append]
    exact List.getLast?_concat _

/-- Witness for C5 on a concrete run that handles one message and then
observes a stop request. -/
theorem lifecycle_exactly_once_witness :
    (runLoop (fun (a e : Nat) => a + e) 0
        [Arrival.msg 2, Arrival.stopSig]).snd.fst.count Event.stoppedHook = 1 ∧
    (runLoop (fun (a e : Nat) => a + e) 0
        [Arrival.msg 2, Arrival.stopSig]).snd.fst.getLast?
      = some Event.stoppedHook :=
  ⟨(lifecycle_exactly_once (fun a e => a + e) 0
      [Arrival.msg 2, Arrival.stopSig]).2.2.1 rfl,
    (lifecycle_exactly_once (fun a e => a + e) 0
      [Arrival.msg 2, Arrival.stopSig]).2.2.2.2 rfl⟩

/-- C6: per-sender FIFO. If the envelopes of one sender appear in the
arrival stream in their send order ms (which the FIFO mailbox channel
guarantees for sends sequenced through a single Address), then the handlers
observe exactly an initial segment of ms — ms.take k, never a reordering —
and when no stop request cuts the run short they observe all of ms in that
exact order. -/
theorem fifo_per_sender {A E : Type} (sender : E → Nat) (s : Nat)
    (h : A → E → A) (a : A) (arr : List (Arrival E)) (ms : List E)
    (hfifo : (arrivalMsgs arr).filter (fun e => sender e == s) = ms) :
    (∃ k, (handledMsgs (runLoop h a arr).snd.fst).filter
        (fun e => sender e == s) = ms.take k) ∧
    (sawStop arr = false →
      (handledMsgs (runLoop h a arr).snd.fst).filter
        (fun e => sender e == s) = ms) := by
  rw [handledMsgs_runLoop]
  constructor
  · obtain ⟨k, hk⟩ := msgsUntilStop_take arr
    rw [hk]
    obtain ⟨j, hj⟩ :=
      filter_take_eq_take_filter (fun e => sender e == s) (arrivalMsgs arr) k
    rw [hj, hfifo]
    exact ⟨j, rfl⟩
  · intro hns
    rw [msgsUntilStop_of_no_stop arr hns, hfifo]

/-- Witness for C6 on a concrete run: sender 0 owns the even messages, they
are handled as [2, 4], exactly their send order. -/
theorem fifo_per_sender_witness :
    (handledMsgs (runLoop (fun (a e : Nat) => a + e) 0
        [Arrival.msg 2, Arrival.msg 1, Arrival.msg 4]).snd.fst).filter
      (fun e => e % 2 == 0) = [2, 4] :=
  (fifo_per_sender (fun e => e % 2) 0 (fun a e => a + e) 0
    [Arrival.msg 2, Arrival.msg 1, Arrival.msg 4] [2, 4] rfl).2 rfl

/-- C7: stop is idempotent. Two stop requests arriving in succession produce
a run with exactly the same final actor state, event trace and termination
flag as a single one; more generally everything arriving after the first
stop request is ignored, so a stop issued after a stop has already been
requested or after the actor has stopped is a no-op. On the source side,
Context::stop issued twice leaves the run loop's stop-pending observation
exactly as one call does. -/
theorem stop_idempotent {A E : Type} (h : A → E → A) (a : A)
    (l tail : List (Arrival E)) (c : Context) (st : Store Unit) :
    runLoop h a (l ++ [Arrival.stopSig, Arrival.stopSig])
      = runLoop h a (l ++ [Arrival.stopSig]) ∧
    runLoop h a (l ++ Arrival.stopSig :: tail)
      = runLoop h a (l ++ [Arrival.stopSig]) ∧
    (stopRequested ((Context.stop c (Context.stop c st).snd).snd) c.inner ↔
      stopRequested ((Context.stop c st).snd) c.inner) := by
  refine ⟨?_, ?_, ?_⟩
  · have hb := runBody_first_stop h a l [Arrival.stopSig]
    simp [runLoop, hb]
  · have hb := runBody_first_stop h a l tail
    simp [runLoop, hb]
  · cases hc : (st.chans c.inner.stop_tx).closed <;>
      simp [Context.stop, Store.send, Chan.send, stopRequested, hc]

/-- C8: Context::addr and Addr::clone both hand back a handle over the very
same Inner, i.e. the same mailbox Sender end tx and the same stop channel
Sender end stop_tx, so a send through any such handle is literally the same
operation on the same actor's mailbox as a send through the original, and a
shutdown request issued over the handle's stop end targets the same actor's
stop channel. -/
theorem derived_addresses_share_channel_ends {A M C : Type}
    (h : HandlerFn A M C) (c : Context) (ad : Addr) (m : M)
    (st : Store (EnvelopeFn A C)) :
    (Context.addr c).inner = c.inner ∧
    (Addr.clone ad).inner = ad.inner ∧
    Addr.send h (Context.addr c) m st = Inner.send h c.inner m st ∧
    Addr.send h (Addr.clone ad) m st = Addr.send h ad m st ∧
    (Context.addr c).inner.tx = c.inner.tx ∧
    (Context.addr c).inner.stop_tx = c.inner.stop_tx :=
  ⟨rfl, rfl, rfl, rfl, rfl, rfl⟩

/-- C9: the envelope Inner::send builds owns exactly the one moved-in
message (its slot is Some m), and dispatching such an envelope succeeds: the
take-then-unwrap extraction yields the message and hands it to the bound
handler, leaving the slot empty. Hence under the run loop's at-most-once
consumption every dispatch acts on a freshly built envelope and the unwrap
never fails; only a second dispatch of the same envelope — excluded by the
precondition — would find the slot already empty and panic. -/
theorem envelope_one_shot_unwrap_succeeds {A M C : Type}
    (h : HandlerFn A M C) (m : M) (a : A) (c : C) :
    (mkMessage m).msg = some m ∧
    Message.handle h (mkMessage m) a c = some ((h a m c), Message.mk none) ∧
    Message.handle h (Message.mk (none : Option M)) a c = none :=
  ⟨rfl, rfl, rfl⟩

end ActorSpec
